import Mathlib

/-!
# Verification of the quicos tunneling core

A shallow embedding of the quicos repository (a minimal SOCKS-style
tunneling protocol) and proofs about its wire codec and connection
handling.

Byte streams are modelled as `List Nat`, each element a `u8` value.
Reading from an asynchronous stream is modelled as a function
`List Nat → Except RError α × List Nat` returning the decoded value (or
error) together with the bytes left unconsumed; on error the second
component reflects how far the source consumed the stream (tokio's
`read_exact` consumes all remaining bytes when it hits end of stream).
Rust `String`s are modelled by their UTF-8 byte content (`List Nat`);
validity of that content is the `validUtf8` predicate below, embedding
`std::str::from_utf8`'s acceptance condition.
-/

/-- Errors surfaced by stream reads, mirroring `std::io::Error` as the
code uses it: `eof` for short reads (tokio `UnexpectedEof`), `other`
for the decode errors the code builds with `Error::other`. -/
inductive RError where
  | eof : RError
  | other : String → RError
deriving DecidableEq, Repr

deriving instance DecidableEq for Except

/-- `Ipv4Addr` (src/src/request.rs): four octets. -/
structure Ipv4Addr where
  o0 : Nat
  o1 : Nat
  o2 : Nat
  o3 : Nat
deriving DecidableEq, Repr

/-- `SocketAddrV4`: an IPv4 address plus a `u16` port. -/
structure SocketAddrV4 where
  ip : Ipv4Addr
  port : Nat
deriving DecidableEq, Repr

/-- `Ipv6Addr`: eight `u16` segments, as passed to `Ipv6Addr::new`. -/
structure Ipv6Addr where
  s0 : Nat
  s1 : Nat
  s2 : Nat
  s3 : Nat
  s4 : Nat
  s5 : Nat
  s6 : Nat
  s7 : Nat
deriving DecidableEq, Repr

/-- Big-endian byte pair of a `u16` value (`u16::to_be_bytes`). -/
def be16 (p : Nat) : List Nat := [p / 256, p % 256]

/-- `Ipv6Addr::octets`: the sixteen bytes, big-endian per segment. -/
def Ipv6Addr.octets (a : Ipv6Addr) : List Nat :=
  be16 a.s0 ++ be16 a.s1 ++ be16 a.s2 ++ be16 a.s3 ++
  be16 a.s4 ++ be16 a.s5 ++ be16 a.s6 ++ be16 a.s7

/-- `SocketAddrV6`: an IPv6 address, a `u16` port, and the `flowinfo`
and `scope_id` fields (`u32`) that `SocketAddrV6::new` takes. -/
structure SocketAddrV6 where
  ip : Ipv6Addr
  port : Nat
  flowinfo : Nat
  scope_id : Nat
deriving DecidableEq, Repr

/-- `std::net::SocketAddr`: either of the two concrete socket address
kinds, as produced by the `.into()` conversions in
`Address::to_socket_address`. -/
inductive SocketAddr where
  | V4 : SocketAddrV4 → SocketAddr
  | V6 : SocketAddrV6 → SocketAddr
deriving DecidableEq, Repr

/-- `Address` (src/src/request.rs): domain name (UTF-8 bytes of the
Rust `String`) with port, or a concrete IPv4/IPv6 socket address. -/
inductive Address where
  | Domain : List Nat → Nat → Address
  | IPv4 : SocketAddrV4 → Address
  | IPv6 : SocketAddrV6 → Address
deriving DecidableEq, Repr

/-- `Request` (src/src/request.rs): the single `TCPConnect` variant. -/
inductive Request where
  | TCPConnect : Address → Request
deriving DecidableEq, Repr

/-- `Response` (src/src/response.rs). -/
inductive Response where
  | Succeed : Response
  | NoAcceptableMethod : Response
deriving DecidableEq, Repr

/-- Is a byte a UTF-8 continuation byte (`0x80..=0xBF`)? -/
def utf8cont (b : Nat) : Bool := 0x80 ≤ b && b ≤ 0xBF

/-- Allowed second byte of a three-byte UTF-8 sequence headed by `b`
(surrogates and overlong forms excluded, as in `str::from_utf8`). -/
def utf8second3 (b c : Nat) : Bool :=
  if b = 0xE0 then 0xA0 ≤ c && c ≤ 0xBF
  else if b = 0xED then 0x80 ≤ c && c ≤ 0x9F
  else utf8cont c

/-- Allowed second byte of a four-byte UTF-8 sequence headed by `b`. -/
def utf8second4 (b c : Nat) : Bool :=
  if b = 0xF0 then 0x90 ≤ c && c ≤ 0xBF
  else if b = 0xF4 then 0x80 ≤ c && c ≤ 0x8F
  else utf8cont c

/-- `std::str::from_utf8` succeeds exactly on byte lists accepted here:
ASCII, and well-formed 2-, 3- and 4-byte sequences with overlong
encodings and surrogates rejected. -/
def validUtf8 : List Nat → Bool
  | [] => true
  | b :: rest =>
    if b ≤ 0x7F then validUtf8 rest
    else if 0xC2 ≤ b && b ≤ 0xDF then
      match rest with
      | c1 :: r => utf8cont c1 && validUtf8 r
      | [] => false
    else if 0xE0 ≤ b && b ≤ 0xEF then
      match rest with
      | c1 :: c2 :: r => utf8second3 b c1 && utf8cont c2 && validUtf8 r
      | _ => false
    else if 0xF0 ≤ b && b ≤ 0xF4 then
      match rest with
      | c1 :: c2 :: c3 :: r =>
          utf8second4 b c1 && utf8cont c2 && utf8cont c3 && validUtf8 r
      | _ => false
    else false

/-- `impl ToBytes for Address` (src/src/request.rs, lines 114-140).
The domain length byte is `domain_bytes.len() as u8`, hence `% 256`;
the IPv6 branch emits only the sixteen octets and the port. -/
def Address.to_bytes : Address → List Nat
  | .Domain name port => 0x01 :: (name.length % 256) :: (name ++ be16 port)
  | .IPv4 a => 0x02 :: a.ip.o0 :: a.ip.o1 :: a.ip.o2 :: a.ip.o3 :: be16 a.port
  | .IPv6 a => 0x03 :: (a.ip.octets ++ be16 a.port)

/-- `impl ToBytes for Request` (src/src/request.rs, lines 29-42). -/
def Request.to_bytes : Request → List Nat
  | .TCPConnect a => 0x01 :: a.to_bytes

/-- `impl ToBytes for Response` (src/src/response.rs, lines 19-32). -/
def Response.to_bytes : Response → List Nat
  | .Succeed => [0x01]
  | .NoAcceptableMethod => [0xFF]

/-- The `ADDRESS_TYPE_DOMAIN` arm of `Address::read`: a length byte,
then `read_exact` of `len + 2` bytes (name then big-endian port), with
the name checked by `str::from_utf8`. -/
def Address.readDomain : List Nat → Except RError Address × List Nat
  | [] => (.error .eof, [])
  | len :: r =>
    if len + 2 ≤ r.length then
      let buffer := r.take (len + 2)
      if validUtf8 (buffer.take len) then
        (.ok (.Domain (buffer.take len)
               (buffer.getD len 0 * 256 + buffer.getD (len + 1) 0)),
         r.drop (len + 2))
      else
        (.error (.other "invalid domain name"), r.drop (len + 2))
    else
      (.error .eof, [])

/-- The `ADDRESS_TYPE_IPV4` arm of `Address::read`: `read_exact` of
4 + 2 bytes. -/
def Address.readIPv4 : List Nat → Except RError Address × List Nat
  | b0 :: b1 :: b2 :: b3 :: p1 :: p2 :: r =>
    (.ok (.IPv4 ⟨⟨b0, b1, b2, b3⟩, p1 * 256 + p2⟩), r)
  | _ => (.error .eof, [])

/-- The `ADDRESS_TYPE_IPV6` arm of `Address::read`: `read_exact` of
16 + 2 bytes, segments rebuilt big-endian, `flowinfo` and `scope_id`
both set to `0` by `SocketAddrV6::new(ip, port, 0, 0)`. -/
def Address.readIPv6 : List Nat → Except RError Address × List Nat
  | b0 :: b1 :: b2 :: b3 :: b4 :: b5 :: b6 :: b7 :: b8 :: b9 :: b10 ::
    b11 :: b12 :: b13 :: b14 :: b15 :: p1 :: p2 :: r =>
    (.ok (.IPv6 ⟨⟨b0 * 256 + b1, b2 * 256 + b3, b4 * 256 + b5,
                  b6 * 256 + b7, b8 * 256 + b9, b10 * 256 + b11,
                  b12 * 256 + b13, b14 * 256 + b15⟩,
                 p1 * 256 + p2, 0, 0⟩), r)
  | _ => (.error .eof, [])

/-- `impl Streamable for Address`, `read` (src/src/request.rs, lines
150-212): one tag byte, then the variant-specific body; an
unrecognized tag is `Error::other` with nothing past the tag
consumed. -/
def Address.read : List Nat → Except RError Address × List Nat
  | [] => (.error .eof, [])
  | atyp :: rest =>
    if atyp = 0x01 then Address.readDomain rest
    else if atyp = 0x02 then Address.readIPv4 rest
    else if atyp = 0x03 then Address.readIPv6 rest
    else (.error (.other ("unsupported request address type " ++ toString atyp)),
          rest)

/-- `impl Streamable for Request`, `read` (src/src/request.rs, lines
52-73): one tag byte, `0x01` dispatches to `Address::read`, anything
else is `Error::other`. -/
def Request.read : List Nat → Except RError Request × List Nat
  | [] => (.error .eof, [])
  | rtyp :: rest =>
    if rtyp = 0x01 then
      match Address.read rest with
      | (.ok a, r) => (.ok (.TCPConnect a), r)
      | (.error e, r) => (.error e, r)
    else
      (.error (.other ("unsupported request type " ++ toString rtyp)), rest)

/-- `impl Streamable for Response`, `read` (src/src/response.rs, lines
42-55): one byte, `0x01` is `Succeed`, every other value is
`NoAcceptableMethod`. -/
def Response.read : List Nat → Except RError Response × List Nat
  | [] => (.error .eof, [])
  | b :: r => (.ok (if b = 0x01 then .Succeed else .NoAcceptableMethod), r)

/-- A `Resolver` (src/src/lib.rs): `lookup(domain, port)` returning a
socket address or an error, modelled as a pure function. -/
def Resolver : Type := List Nat → Nat → Except RError SocketAddr

/-- `Address::to_socket_address` (src/src/request.rs, lines 100-112).
The second component instruments the run: it records, in order, every
`(domain, port)` pair passed to `resolver.lookup`. The `IPv4`/`IPv6`
arms perform only the `.into()` conversion. -/
def Address.to_socket_address (a : Address) (resolver : Resolver) :
    Except RError SocketAddr × List (List Nat × Nat) :=
  match a with
  | .Domain domain port => (resolver domain port, [(domain, port)])
  | .IPv4 addr => (.ok (.V4 addr), [])
  | .IPv6 addr => (.ok (.V6 addr), [])

/-- Observable I/O events of a connection handler: bytes written to the
stream the handler answers on (the accepted stream for the server, the
remote stream for the client) and entry into `copy_bidirectional`. -/
inductive Event where
  | wrote : List Nat → Event
  | relay : Event
deriving DecidableEq, Repr

/-- `Server::handler` (src/src/server.rs, lines 89-111), with the
accepted stream's incoming bytes as `input`, `TcpStream::connect`
abstracted as `dial`, and `copy_bidirectional`'s outcome abstracted as
`relayResult`. The first component is the ordered list of observable
events on the accepted stream; writes to it are modelled as
infallible. -/
def Server.handler (resolver : Resolver) (dial : SocketAddr → Except RError Unit)
    (relayResult : Except RError Unit) (input : List Nat) :
    List Event × Except RError Unit :=
  match Request.read input with
  | (.error e, _) => ([], .error e)
  | (.ok (.TCPConnect addr), _) =>
    match (addr.to_socket_address resolver).fst with
    | .error e => ([], .error e)
    | .ok address =>
      match dial address with
      | .error e => ([], .error e)
      | .ok _ => ([.wrote Response.Succeed.to_bytes, .relay], relayResult)

/-- `Client::handler` (src/src/client.rs, lines 29-44): write the
request to the remote stream, read a `Response` from it (`remoteInput`
is what the remote yields), relay only on `Succeed`; any other decoded
response falls through to `Ok(())`. -/
def Client.handler (request : Request) (remoteInput : List Nat)
    (relayResult : Except RError Unit) : List Event × Except RError Unit :=
  match Response.read remoteInput with
  | (.error e, _) => ([.wrote request.to_bytes], .error e)
  | (.ok .Succeed, _) => ([.wrote request.to_bytes, .relay], relayResult)
  | (.ok .NoAcceptableMethod, _) => ([.wrote request.to_bytes], .ok ())

/-- `Server::start` (src/src/server.rs, lines 82-87): repeatedly
`fetch` from the accept provider, spawning a handler per `some` item
and stopping at the first `none`. The argument lists the provider's
successive answers; the result lists the items handed to spawned
handlers, in order. -/
def Server.start {α : Type} : List (Option α) → List α
  | [] => []
  | none :: _ => []
  | some s :: rest => s :: Server.start rest

/-- `Client::start` (src/src/client.rs, lines 21-27): each iteration
fetches a local item; `none` ends the loop. A fetched local item is
paired with one remote fetch; if that yields `none` the local item is
dropped and the loop continues. An exhausted remote answer list
behaves like `none` answers. The result lists the spawned
(local, remote) pairs in order. -/
def Client.start {α β : Type} : List (Option α) → List (Option β) → List (α × β)
  | [], _ => []
  | none :: _, _ => []
  | some _ :: ls, [] => Client.start ls []
  | some _ :: ls, none :: rs => Client.start ls rs
  | some l :: ls, some r :: rs => (l, r) :: Client.start ls rs

/-- Does a read result carry a decode error (`Error::other`), as
opposed to success or an end-of-stream I/O error? -/
def isDecodeErr {α : Type} : Except RError α → Bool
  | .error (.other _) => true
  | _ => false

/-- Spec-side characterisation of when `Address::read` raises a decode
error: the tag byte is present but not `0x01`/`0x02`/`0x03`, or the
tag is `Domain`, the full `len + 2` body is present, and the name
bytes are not valid UTF-8. -/
def addrDecodeErrSpec : List Nat → Bool
  | [] => false
  | atyp :: rest =>
    if atyp = 0x01 then
      match rest with
      | [] => false
      | len :: r => decide (len + 2 ≤ r.length) && !validUtf8 (r.take len)
    else if atyp = 0x02 then false
    else if atyp = 0x03 then false
    else true

/-- Spec-side characterisation of when `Request::read` raises a decode
error: the tag byte is present but not `0x01`, or the tag is `0x01`
and the remainder makes `Address::read` raise one. -/
def reqDecodeErrSpec : List Nat → Bool
  | [] => false
  | rtyp :: rest => if rtyp = 0x01 then addrDecodeErrSpec rest else true

/-! ## Helper lemmas -/

theorem be16_length (p : Nat) : (be16 p).length = 2 := rfl

theorem be16_recombine (p : Nat) : p / 256 * 256 + p % 256 = p := by omega

/-- Round-trip of the `Domain` encoding through `Address::read`, for
names of at most 255 bytes that are valid UTF-8. -/
theorem read_toBytes_domain (name : List Nat) (port : Nat) (extra : List Nat)
    (hlen : name.length ≤ 255) (hutf : validUtf8 name = true) :
    Address.read ((Address.Domain name port).to_bytes ++ extra) =
      (.ok (.Domain name port), extra) := by
  have hmod : name.length % 256 = name.length := Nat.mod_eq_of_lt (by omega)
  have hl : (name ++ be16 port).length = name.length + 2 := by simp [be16]
  have htake : ((name ++ be16 port) ++ extra).take (name.length + 2) = name ++ be16 port :=
    List.take_left' hl
  have hdrop : ((name ++ be16 port) ++ extra).drop (name.length + 2) = extra :=
    List.drop_left' hl
  have hguard : name.length + 2 ≤ ((name ++ be16 port) ++ extra).length := by
    simp [be16]
  have htakename : (name ++ be16 port).take name.length = name :=
    List.take_left' rfl
  have hgetD1 : (name ++ be16 port).getD name.length 0 = port / 256 := by
    rw [List.getD_append_right _ _ _ _ (Nat.le_refl _)]
    simp [be16]
  have hgetD2 : (name ++ be16 port).getD (name.length + 1) 0 = port % 256 := by
    rw [List.getD_append_right _ _ _ _ (by omega)]
    simp [be16]
  simp only [Address.to_bytes, hmod, List.cons_append, Address.read,
    if_pos rfl, Address.readDomain, if_pos hguard, htake, htakename, hutf,
    if_pos, hgetD1, hgetD2, be16_recombine, hdrop]

/-- Round-trip of the `IPv4` encoding through `Address::read`. -/
theorem read_toBytes_ipv4 (a : SocketAddrV4) (extra : List Nat) :
    Address.read ((Address.IPv4 a).to_bytes ++ extra) = (.ok (.IPv4 a), extra) := by
  obtain ⟨⟨o0, o1, o2, o3⟩, port⟩ := a
  simp [Address.to_bytes, Address.read, Address.readIPv4, be16, be16_recombine]

/-- Round-trip of the `IPv6` encoding through `Address::read`, when
`flowinfo` and `scope_id` are both zero. -/
theorem read_toBytes_ipv6 (a : SocketAddrV6) (extra : List Nat)
    (hf : a.flowinfo = 0) (hs : a.scope_id = 0) :
    Address.read ((Address.IPv6 a).to_bytes ++ extra) = (.ok (.IPv6 a), extra) := by
  obtain ⟨⟨s0, s1, s2, s3, s4, s5, s6, s7⟩, port, fi, sc⟩ := a
  subst hf hs
  simp [Address.to_bytes, Ipv6Addr.octets, Address.read, Address.readIPv6, be16,
    be16_recombine]

/-- The constructible addresses the (amended) round-trip property
quantifies over: domain names of 1-255 bytes that are valid UTF-8,
any IPv4 socket address, and IPv6 socket addresses whose `flowinfo`
and `scope_id` are zero. -/
def roundtripSafe : Address → Bool
  | .Domain name _ => decide (1 ≤ name.length) && decide (name.length ≤ 255) &&
      validUtf8 name
  | .IPv4 _ => true
  | .IPv6 a => decide (a.flowinfo = 0) && decide (a.scope_id = 0)

/-- `roundtripSafe` lifted to requests. -/
def reqRoundtripSafe : Request → Bool
  | .TCPConnect a => roundtripSafe a

/-- C1 (amended): for every constructible `Address` whose domain name
has 1-255 valid-UTF-8 bytes, every IPv4 address, and every IPv6
address with `flowinfo = 0` and `scope_id = 0`, deserializing the
serialization (with any trailing bytes) yields the original value and
consumes exactly the serialized bytes; likewise for `Request` over
such addresses and for every `Response`. -/
theorem C1_roundtrip :
    (∀ (a : Address) (extra : List Nat), roundtripSafe a = true →
        Address.read (a.to_bytes ++ extra) = (.ok a, extra)) ∧
    (∀ (r : Request) (extra : List Nat), reqRoundtripSafe r = true →
        Request.read (r.to_bytes ++ extra) = (.ok r, extra)) ∧
    (∀ (resp : Response) (extra : List Nat),
        Response.read (resp.to_bytes ++ extra) = (.ok resp, extra)) := by
  have haddr : ∀ (a : Address) (extra : List Nat), roundtripSafe a = true →
      Address.read (a.to_bytes ++ extra) = (.ok a, extra) := by
    intro a extra hsafe
    match a with
    | .Domain name port =>
      simp only [roundtripSafe, Bool.and_eq_true, decide_eq_true_eq] at hsafe
      exact read_toBytes_domain name port extra hsafe.1.2 hsafe.2
    | .IPv4 a4 => exact read_toBytes_ipv4 a4 extra
    | .IPv6 a6 =>
      simp only [roundtripSafe, Bool.and_eq_true, decide_eq_true_eq] at hsafe
      exact read_toBytes_ipv6 a6 extra hsafe.1 hsafe.2
  refine ⟨haddr, ?_, ?_⟩
  · intro r extra hsafe
    match r with
    | .TCPConnect a =>
      have := haddr a extra hsafe
      simp [Request.to_bytes, List.cons_append, Request.read, this]
  · intro resp extra
    cases resp <;> rfl

/-- C1 counterexample: an IPv6 address with `scope_id = 1` is
constructible, yet deserializing its serialization yields the address
with `scope_id = 0`, not the original value. -/
theorem C1_cex :
    Address.read ((Address.IPv6 ⟨⟨0, 0, 0, 0, 0, 0, 0, 1⟩, 80, 0, 1⟩).to_bytes) ≠
      (.ok (Address.IPv6 ⟨⟨0, 0, 0, 0, 0, 0, 0, 1⟩, 80, 0, 1⟩), []) := by
  decide

/-- C1 witness: the round-trip theorem applied at a one-byte domain
name, a concrete IPv4 request, and `Response::Succeed`. -/
theorem C1_rt_witness :
    Address.read ((Address.Domain [97] 80).to_bytes ++ [5]) =
      (.ok (.Domain [97] 80), [5]) ∧
    Request.read ((Request.TCPConnect (.IPv4 ⟨⟨127, 0, 0, 1⟩, 9000⟩)).to_bytes ++ [9]) =
      (.ok (.TCPConnect (.IPv4 ⟨⟨127, 0, 0, 1⟩, 9000⟩)), [9]) ∧
    Response.read (Response.Succeed.to_bytes ++ [2]) = (.ok .Succeed, [2]) :=
  ⟨C1_roundtrip.1 (.Domain [97] 80) [5] (by decide),
   C1_roundtrip.2.1 (.TCPConnect (.IPv4 ⟨⟨127, 0, 0, 1⟩, 9000⟩)) [9] (by decide),
   C1_roundtrip.2.2 .Succeed [2]⟩

/-- C2: decoding a `Response` never produces a decode error: a leading
`0x01` byte decodes to `Succeed` and every other leading byte decodes
to `NoAcceptableMethod`; and the only bytes ever written for a
`Response` are `0x01` and `0xFF`. -/
theorem C2_response_permissive :
    (∀ (b : Nat) (r : List Nat),
        Response.read (b :: r) =
          (.ok (if b = 0x01 then Response.Succeed else Response.NoAcceptableMethod), r)) ∧
    (∀ s : List Nat, isDecodeErr (Response.read s).fst = false) ∧
    (∀ resp : Response, resp.to_bytes = [0x01] ∨ resp.to_bytes = [0xFF]) := by
  refine ⟨fun b r => rfl, ?_, ?_⟩
  · intro s
    cases s <;> rfl
  · intro resp
    cases resp
    · exact Or.inl rfl
    · exact Or.inr rfl

/-- C7: converting an `Address` to a socket address never consults the
resolver and never fails for `IPv4`/`IPv6` (the invocation log is
empty and the result is the pure conversion), and for `Domain` it
invokes the resolver exactly once with that name and port and returns
exactly the resolver's result. -/
theorem C7_to_socket_address :
    ∀ resolver : Resolver,
      (∀ a4 : SocketAddrV4,
          (Address.IPv4 a4).to_socket_address resolver = (.ok (.V4 a4), [])) ∧
      (∀ a6 : SocketAddrV6,
          (Address.IPv6 a6).to_socket_address resolver = (.ok (.V6 a6), [])) ∧
      (∀ (d : List Nat) (p : Nat),
          (Address.Domain d p).to_socket_address resolver = (resolver d p, [(d, p)])) :=
  fun _ => ⟨fun _ => rfl, fun _ => rfl, fun _ _ => rfl⟩

/-- The `Domain` arm never yields an `IPv6` value. -/
theorem readDomain_ne_ipv6 (l : List Nat) (a : SocketAddrV6) (rest : List Nat) :
    Address.readDomain l ≠ (.ok (.IPv6 a), rest) := by
  cases l with
  | nil => simp [Address.readDomain]
  | cons len r =>
    simp only [Address.readDomain]
    split
    · split <;> simp
    · simp

/-- The `IPv4` arm never yields an `IPv6` value. -/
theorem readIPv4_ne_ipv6 (l : List Nat) (a : SocketAddrV6) (rest : List Nat) :
    Address.readIPv4 l ≠ (.ok (.IPv6 a), rest) := by
  unfold Address.readIPv4
  split <;> simp

/-- Every `IPv6` value produced by the IPv6 arm has zero `flowinfo`
and `scope_id`. -/
theorem readIPv6_zero_fields (l : List Nat) (a : SocketAddrV6) (rest : List Nat)
    (h : Address.readIPv6 l = (.ok (.IPv6 a), rest)) :
    a.flowinfo = 0 ∧ a.scope_id = 0 := by
  unfold Address.readIPv6 at h
  split at h
  · simp only [Prod.mk.injEq, Except.ok.injEq, Address.IPv6.injEq] at h
    obtain ⟨h1, -⟩ := h
    rw [← h1]
    exact ⟨rfl, rfl⟩
  · exact absurd h (by simp)

/-- C10: serializing an `IPv6` address emits only the tag, the sixteen
address octets and the port (`flowinfo`/`scope_id` never reach the
wire); every `IPv6` address produced by decoding has both fields zero;
consequently a constructible `IPv6` address with nonzero `scope_id`
does not survive a serialize/deserialize round trip. -/
theorem C10_ipv6_lossy :
    (∀ (ip : Ipv6Addr) (port fi sc : Nat),
        (Address.IPv6 ⟨ip, port, fi, sc⟩).to_bytes = 0x03 :: (ip.octets ++ be16 port)) ∧
    (∀ (s rest : List Nat) (a : SocketAddrV6),
        Address.read s = (.ok (.IPv6 a), rest) → a.flowinfo = 0 ∧ a.scope_id = 0) ∧
    (Address.read ((Address.IPv6 ⟨⟨0, 0, 0, 0, 0, 0, 0, 0⟩, 443, 0, 7⟩).to_bytes) ≠
        (.ok (Address.IPv6 ⟨⟨0, 0, 0, 0, 0, 0, 0, 0⟩, 443, 0, 7⟩), [])) := by
  refine ⟨fun _ _ _ _ => rfl, ?_, by decide⟩
  intro s rest a h
  cases s with
  | nil => exact absurd h (by simp [Address.read])
  | cons atyp r =>
    simp only [Address.read] at h
    by_cases h1 : atyp = 0x01
    · rw [if_pos h1] at h
      exact absurd h (readDomain_ne_ipv6 r a rest)
    · rw [if_neg h1] at h
      by_cases h2 : atyp = 0x02
      · rw [if_pos h2] at h
        exact absurd h (readIPv4_ne_ipv6 r a rest)
      · rw [if_neg h2] at h
        by_cases h3 : atyp = 0x03
        · rw [if_pos h3] at h
          exact readIPv6_zero_fields r a rest h
        · rw [if_neg h3] at h
          exact absurd h (by simp)

/-- C10 witness: the decoded-fields conjunct applied to a concrete
18-byte IPv6 body. -/
theorem C10_witness :
    (⟨⟨0, 0, 0, 0, 0, 0, 0, 5⟩, 443, 0, 0⟩ : SocketAddrV6).flowinfo = 0 ∧
    (⟨⟨0, 0, 0, 0, 0, 0, 0, 5⟩, 443, 0, 0⟩ : SocketAddrV6).scope_id = 0 :=
  C10_ipv6_lossy.2.1
    [3, 0, 0, 0, 0, 0, 0, 0, 0, 0, 0, 0, 0, 0, 0, 0, 5, 1, 187] []
    ⟨⟨0, 0, 0, 0, 0, 0, 0, 5⟩, 443, 0, 0⟩ (by decide)

/-- Normal form of the `Domain` arm when the full body is present: the
`read_exact` buffer dissolves into direct slices of the stream. -/
theorem readDomain_cons (len : Nat) (r : List Nat) (h : len + 2 ≤ r.length) :
    Address.readDomain (len :: r) =
      if validUtf8 (r.take len) then
        (.ok (.Domain (r.take len) (r.getD len 0 * 256 + r.getD (len + 1) 0)),
         r.drop (len + 2))
      else (.error (.other "invalid domain name"), r.drop (len + 2)) := by
  have ht : (r.take (len + 2)).take len = r.take len := by
    rw [List.take_take]
    congr 1
    omega
  have hg1 : (r.take (len + 2)).getD len 0 = r.getD len 0 := by
    simp only [List.getD_eq_getElem?_getD]
    rw [List.getElem?_take_of_lt (by omega)]
  have hg2 : (r.take (len + 2)).getD (len + 1) 0 = r.getD (len + 1) 0 := by
    simp only [List.getD_eq_getElem?_getD]
    rw [List.getElem?_take_of_lt (by omega)]
  simp only [Address.readDomain, if_pos h, ht, hg1, hg2]

/-- Decoding a `Domain` body whose length byte is `len` from a stream
holding exactly a `len`-byte valid-UTF-8 name, two port bytes, and
trailing data. -/
theorem readDomain_split (name : List Nat) (p1 p2 : Nat) (rest : List Nat)
    (hutf : validUtf8 name = true) :
    Address.readDomain (name.length :: (name ++ p1 :: p2 :: rest)) =
      (.ok (.Domain name (p1 * 256 + p2)), rest) := by
  have hlen : name.length + 2 ≤ (name ++ p1 :: p2 :: rest).length := by
    simp
  rw [readDomain_cons _ _ hlen]
  have ht : (name ++ p1 :: p2 :: rest).take name.length = name := List.take_left' rfl
  have hg1 : (name ++ p1 :: p2 :: rest).getD name.length 0 = p1 := by
    rw [List.getD_append_right _ _ _ _ (Nat.le_refl _)]
    simp
  have hg2 : (name ++ p1 :: p2 :: rest).getD (name.length + 1) 0 = p2 := by
    rw [List.getD_append_right _ _ _ _ (by omega)]
    simp
  have hd : (name ++ p1 :: p2 :: rest).drop (name.length + 2) = rest := by
    rw [show name.length + 2 = (name ++ [p1, p2]).length by simp]
    rw [show name ++ p1 :: p2 :: rest = (name ++ [p1, p2]) ++ rest by simp]
    exact List.drop_left _ _
  rw [ht, hg1, hg2, hd, if_pos hutf]

/-- C8: a `Domain` length byte of `0` decodes to the empty name with
the port taken from the next two bytes; a length byte of `255`
followed by exactly 255 valid-UTF-8 name bytes and 2 port bytes
decodes to that name and port; and a stream that ends before
supplying all 255 + 2 body bytes yields an end-of-stream I/O error,
never a partial decode. -/
theorem C8_domain_boundary :
    (∀ (p1 p2 : Nat) (rest : List Nat),
        Address.read (0x01 :: 0 :: p1 :: p2 :: rest) =
          (.ok (.Domain [] (p1 * 256 + p2)), rest)) ∧
    (∀ (name : List Nat) (p1 p2 : Nat) (rest : List Nat),
        name.length = 255 → validUtf8 name = true →
        Address.read (0x01 :: 255 :: (name ++ p1 :: p2 :: rest)) =
          (.ok (.Domain name (p1 * 256 + p2)), rest)) ∧
    (∀ tail : List Nat, tail.length < 257 →
        Address.read (0x01 :: 255 :: tail) = (.error .eof, [])) := by
  refine ⟨?_, ?_, ?_⟩
  · intro p1 p2 rest
    have := readDomain_split [] p1 p2 rest rfl
    simpa [Address.read] using this
  · intro name p1 p2 rest hlen hutf
    have := readDomain_split name p1 p2 rest hutf
    rw [hlen] at this
    simpa [Address.read] using this
  · intro tail htail
    have : ¬(255 + 2 ≤ tail.length) := by omega
    simp [Address.read, Address.readDomain, this]

set_option maxRecDepth 4096

/-- C8 witness: the boundary theorem applied at a zero-length domain
body, a full 255-byte body of `a` characters, and a body cut short
after 254 of the 255 name bytes. -/
theorem C8_witness :
    Address.read [0x01, 0, 0, 80, 9] = (.ok (.Domain [] 80), [9]) ∧
    Address.read (0x01 :: 255 :: (List.replicate 255 97 ++ 1 :: 187 :: [5])) =
      (.ok (.Domain (List.replicate 255 97) (1 * 256 + 187)), [5]) ∧
    Address.read (0x01 :: 255 :: List.replicate 254 97) = (.error .eof, []) :=
  ⟨C8_domain_boundary.1 0 80 [9],
   C8_domain_boundary.2.1 (List.replicate 255 97) 1 187 [5] (by simp) (by decide),
   C8_domain_boundary.2.2 (List.replicate 254 97) (by simp)⟩

/-- The `IPv4` arm never raises a decode error. -/
theorem readIPv4_no_decodeErr (l : List Nat) :
    isDecodeErr (Address.readIPv4 l).fst = false := by
  unfold Address.readIPv4
  split <;> rfl

/-- The `IPv6` arm never raises a decode error. -/
theorem readIPv6_no_decodeErr (l : List Nat) :
    isDecodeErr (Address.readIPv6 l).fst = false := by
  unfold Address.readIPv6
  split <;> rfl

/-- The `Domain` arm raises a decode error exactly when the full
`len + 2`-byte body is present but the name bytes are not valid
UTF-8. -/
theorem readDomain_decodeErr (l : List Nat) :
    isDecodeErr (Address.readDomain l).fst =
      (match l with
       | [] => false
       | len :: r => decide (len + 2 ≤ r.length) && !validUtf8 (r.take len)) := by
  cases l with
  | nil => rfl
  | cons len r =>
    by_cases hg : len + 2 ≤ r.length
    · rw [readDomain_cons len r hg]
      by_cases hv : validUtf8 (r.take len)
      · simp [hv, hg, isDecodeErr]
      · simp only [Bool.eq_false_iff] at hv
        simp [hv, hg, isDecodeErr]
    · simp only [Address.readDomain, if_neg hg]
      simp [hg, isDecodeErr]

/-- C3: `Request::read` and `Address::read` fail with a decode error
(`Error::other`, as opposed to an end-of-stream I/O error) exactly
when the `RTYP` byte is present but not `0x01`, the `ATYP` byte is
present but not `0x01`/`0x02`/`0x03`, or a full domain body is present
whose name bytes are not valid UTF-8; and on an unrecognized tag no
bytes beyond the tag byte are consumed. -/
theorem C3_decode_error_exact :
    (∀ s : List Nat, isDecodeErr (Address.read s).fst = addrDecodeErrSpec s) ∧
    (∀ s : List Nat, isDecodeErr (Request.read s).fst = reqDecodeErrSpec s) ∧
    (∀ (b : Nat) (rest : List Nat), b ≠ 0x01 → b ≠ 0x02 → b ≠ 0x03 →
        Address.read (b :: rest) =
          (.error (.other ("unsupported request address type " ++ toString b)), rest)) ∧
    (∀ (b : Nat) (rest : List Nat), b ≠ 0x01 →
        Request.read (b :: rest) =
          (.error (.other ("unsupported request type " ++ toString b)), rest)) := by
  have haddr : ∀ s : List Nat, isDecodeErr (Address.read s).fst = addrDecodeErrSpec s := by
    intro s
    cases s with
    | nil => rfl
    | cons atyp rest =>
      simp only [Address.read, addrDecodeErrSpec]
      by_cases h1 : atyp = 0x01
      · rw [if_pos h1, if_pos h1]
        exact readDomain_decodeErr rest
      · rw [if_neg h1, if_neg h1]
        by_cases h2 : atyp = 0x02
        · rw [if_pos h2, if_pos h2]
          exact readIPv4_no_decodeErr rest
        · rw [if_neg h2, if_neg h2]
          by_cases h3 : atyp = 0x03
          · rw [if_pos h3, if_pos h3]
            exact readIPv6_no_decodeErr rest
          · rw [if_neg h3, if_neg h3]
            rfl
  refine ⟨haddr, ?_, ?_, ?_⟩
  · intro s
    cases s with
    | nil => rfl
    | cons rtyp rest =>
      simp only [Request.read, reqDecodeErrSpec]
      by_cases h1 : rtyp = 0x01
      · rw [if_pos h1, if_pos h1, ← haddr rest]
        rcases h : Address.read rest with ⟨res, rem⟩
        cases res with
        | error e => cases e <;> rfl
        | ok a => simp [isDecodeErr]
      · rw [if_neg h1, if_neg h1]
        rfl
  · intro b rest h1 h2 h3
    simp only [Address.read, if_neg h1, if_neg h2, if_neg h3]
  · intro b rest h1
    simp only [Request.read, if_neg h1]

/-- C3 witness: the characterisation applied at a bad `ATYP` stream, a
bad-UTF-8 domain stream, a bad `RTYP` stream, and the tag-consumption
conjuncts at concrete unrecognized tags. -/
theorem C3_witness :
    isDecodeErr (Address.read [9, 1, 2]).fst = addrDecodeErrSpec [9, 1, 2] ∧
    isDecodeErr (Address.read [1, 1, 0xFF, 0, 80]).fst =
      addrDecodeErrSpec [1, 1, 0xFF, 0, 80] ∧
    isDecodeErr (Request.read [7]).fst = reqDecodeErrSpec [7] ∧
    Address.read [9, 1, 2] =
      (.error (.other ("unsupported request address type " ++ toString 9)), [1, 2]) ∧
    Request.read [7, 1, 2] =
      (.error (.other ("unsupported request type " ++ toString 7)), [1, 2]) :=
  ⟨C3_decode_error_exact.1 [9, 1, 2],
   C3_decode_error_exact.1 [1, 1, 0xFF, 0, 80],
   C3_decode_error_exact.2.1 [7],
   C3_decode_error_exact.2.2.1 9 [1, 2] (by decide) (by decide) (by decide),
   C3_decode_error_exact.2.2.2 7 [1, 2] (by decide)⟩

/-- C4: on the server success path (request decodes, the address
resolves, the dial succeeds) the handler's observable events on the
accepted stream are exactly one write of the single byte `0x01`
(`Response::Succeed`) followed by entry into the relay. -/
theorem C4_server_success (resolver : Resolver)
    (dial : SocketAddr → Except RError Unit) (relayResult : Except RError Unit)
    (input : List Nat) (addr : Address) (rest : List Nat) (sa : SocketAddr)
    (hreq : Request.read input = (.ok (.TCPConnect addr), rest))
    (hres : (addr.to_socket_address resolver).fst = .ok sa)
    (hdial : dial sa = .ok ()) :
    Server.handler resolver dial relayResult input =
      ([.wrote [0x01], .relay], relayResult) := by
  simp only [Server.handler, hreq, hres, hdial]
  rfl

/-- C4 witness: a concrete `TCPConnect(IPv4(127.0.0.1:9000))` request
stream, a resolver that always errors (IPv4 needs no resolution), and
a dial that succeeds. -/
theorem C4_witness :
    Server.handler (fun _ _ => .error .eof) (fun _ => .ok ()) (.ok ())
        [1, 2, 127, 0, 0, 1, 35, 40] =
      ([.wrote [0x01], .relay], .ok ()) :=
  C4_server_success (fun _ _ => .error .eof) (fun _ => .ok ()) (.ok ())
    [1, 2, 127, 0, 0, 1, 35, 40] (.IPv4 ⟨⟨127, 0, 0, 1⟩, 9000⟩) []
    (.V4 ⟨⟨127, 0, 0, 1⟩, 9000⟩) (by decide) rfl rfl

/-- C5: if any server handshake step before the acknowledge fails
(request decode, resolution, or dial), the handler writes nothing to
the accepted stream, never enters the relay, and returns that error —
aborting only this connection (`Server.start` spawns handlers whose
outcomes it never consults). -/
theorem C5_server_failure_silent (resolver : Resolver)
    (dial : SocketAddr → Except RError Unit) (relayResult : Except RError Unit)
    (input : List Nat) :
    (∀ e : RError, (Request.read input).fst = .error e →
        Server.handler resolver dial relayResult input = ([], .error e)) ∧
    (∀ (addr : Address) (rest : List Nat) (e : RError),
        Request.read input = (.ok (.TCPConnect addr), rest) →
        (addr.to_socket_address resolver).fst = .error e →
        Server.handler resolver dial relayResult input = ([], .error e)) ∧
    (∀ (addr : Address) (rest : List Nat) (sa : SocketAddr) (e : RError),
        Request.read input = (.ok (.TCPConnect addr), rest) →
        (addr.to_socket_address resolver).fst = .ok sa →
        dial sa = .error e →
        Server.handler resolver dial relayResult input = ([], .error e)) := by
  refine ⟨?_, ?_, ?_⟩
  · intro e he
    rcases hp : Request.read input with ⟨res, rem⟩
    rw [hp] at he
    simp only at he
    subst he
    simp only [Server.handler, hp]
  · intro addr rest e hreq hres
    simp only [Server.handler, hreq, hres]
  · intro addr rest sa e hreq hres hdial
    simp only [Server.handler, hreq, hres, hdial]

/-- C5 witness: the decode-failure conjunct applied to an empty
accepted stream and the resolution-failure conjunct applied to a
domain request whose resolver errors. -/
theorem C5_witness :
    Server.handler (fun _ _ => .error (.other "lookup failed")) (fun _ => .ok ())
        (.ok ()) [] = ([], .error .eof) ∧
    Server.handler (fun _ _ => .error (.other "lookup failed")) (fun _ => .ok ())
        (.ok ()) [1, 1, 1, 97, 0, 80] = ([], .error (.other "lookup failed")) :=
  ⟨(C5_server_failure_silent (fun _ _ => .error (.other "lookup failed"))
      (fun _ => .ok ()) (.ok ()) []).1 .eof rfl,
   (C5_server_failure_silent (fun _ _ => .error (.other "lookup failed"))
      (fun _ => .ok ()) (.ok ()) [1, 1, 1, 97, 0, 80]).2.1
     (.Domain [97] 80) [] (.other "lookup failed") (by decide) rfl⟩

/-- C6: the client handler relays if and only if the decoded response
is `Succeed`; a decoded `NoAcceptableMethod` leaves the trace at the
single request write (no relay) and the handler returns `Ok`. -/
theorem C6_client_branch (request : Request) (remoteInput : List Nat)
    (relayResult : Except RError Unit) :
    (Event.relay ∈ (Client.handler request remoteInput relayResult).fst ↔
        (Response.read remoteInput).fst = .ok .Succeed) ∧
    ((Response.read remoteInput).fst = .ok .NoAcceptableMethod →
        Client.handler request remoteInput relayResult =
          ([.wrote request.to_bytes], .ok ())) := by
  rcases hp : Response.read remoteInput with ⟨res, rem⟩
  cases res with
  | error e =>
    cases e <;> simp [Client.handler, hp]
  | ok resp =>
    cases resp <;> simp [Client.handler, hp]

/-- C6 witness: the `NoAcceptableMethod` conjunct applied to a remote
stream answering `0xFF`, and the relay-iff conjunct instantiated on a
remote stream answering `0x01`. -/
theorem C6_witness :
    Client.handler (.TCPConnect (.IPv4 ⟨⟨127, 0, 0, 1⟩, 9000⟩)) [0xFF] (.ok ()) =
      ([.wrote (Request.TCPConnect (.IPv4 ⟨⟨127, 0, 0, 1⟩, 9000⟩)).to_bytes], .ok ()) ∧
    Event.relay ∈
      (Client.handler (.TCPConnect (.IPv4 ⟨⟨127, 0, 0, 1⟩, 9000⟩)) [1] (.ok ())).fst :=
  ⟨(C6_client_branch (.TCPConnect (.IPv4 ⟨⟨127, 0, 0, 1⟩, 9000⟩)) [0xFF] (.ok ())).2
     rfl,
   (C6_client_branch (.TCPConnect (.IPv4 ⟨⟨127, 0, 0, 1⟩, 9000⟩)) [1] (.ok ())).1.mpr
     rfl⟩

/-- C9 counterexample: the client's remote source answers `none` on
the first iteration, yet a handler task is spawned on the second
iteration — observing a `none` from the remote source does not stop
the client loop, refuting the claim for "every item source". -/
theorem C9_cex :
    Client.start [some 0, some 1] [none, some 42] = [(1, 42)] := by
  decide

/-- C9 (amended): a `none` from the server's accept source, or from
the client's local source, stops that loop — nothing fetched after it
is spawned; a `none` from the client's remote source only drops the
local item fetched in that iteration, and the loop continues. -/
theorem C9_stop_on_none (α β : Type) :
    (∀ (pre post : List (Option α)),
        Server.start (pre ++ none :: post) = Server.start pre) ∧
    (∀ (pre ls : List (Option α)) (rs : List (Option β)),
        Client.start (pre ++ none :: ls) rs = Client.start pre rs) ∧
    (∀ (l : α) (ls : List (Option α)) (rs : List (Option β)),
        Client.start (some l :: ls) (none :: rs) = Client.start ls rs) := by
  refine ⟨?_, ?_, fun _ _ _ => rfl⟩
  · intro pre post
    induction pre with
    | nil => rfl
    | cons x rest ih =>
      cases x with
      | none => rfl
      | some s => simp [Server.start, List.append_eq, ih]
  · intro pre ls rs
    induction pre generalizing rs with
    | nil => rfl
    | cons x rest ih =>
      cases x with
      | none => rfl
      | some l =>
        cases rs with
        | nil => simpa only [List.cons_append, Client.start] using ih []
        | cons r rtl =>
          cases r with
          | none => simpa only [List.cons_append, Client.start] using ih rtl
          | some rv => simp [Client.start, List.append_eq, ih rtl]
